import Mathlib

/-!
Verification of the stage-progression state machine and puzzle-validation
engine of the repository (src/App.tsx, with a near-duplicate variant in
src/unnamed/part_000; the relevant handlers are identical in both).

The embedding is shallow: each TypeScript handler becomes a Lean function on
an explicit state record.  JavaScript platform behaviour that the handlers
rely on is made explicit:
  * `localStorage` reads are modelled as an `Except Unit (Option String)`
    argument (`Except.error` = the storage access threw, `Except.ok none` =
    key absent, `Except.ok (some s)` = stored string `s`);
  * array indexing `xs[i]` is modelled with `List.get?` (JS `undefined` for
    an out-of-bounds read becomes `none`, a stored `null` becomes
    `some none`);
  * JS truthiness of a nullable string is modelled by `jsTruthyStr` /
    `jsFalsy` (null, undefined and the empty string are falsy);
  * `parseInt(s, 10)` is modelled by `jsParseInt` (leading whitespace
    skipped, optional sign, maximal digit prefix, `none` for NaN).
-/

namespace ArgOp

/-- The `GameStage` enum of App.tsx.  The declaration order gives the
numeric values 0..4 used by the TS numeric enum. -/
inductive GameStage where
  | START
  | KNOWLEDGE
  | CONQUER
  | DRAG_PUZZLE
  | FINAL_CARD
deriving DecidableEq

/-- Numeric value of a stage, matching the TS numeric enum (START = 0, …,
FINAL_CARD = 4).  Stage comparisons in the source (`stage >= GameStage.DRAG_PUZZLE`)
are comparisons of these numbers. -/
def GameStage.toIdx : GameStage → Nat
  | .START => 0
  | .KNOWLEDGE => 1
  | .CONQUER => 2
  | .DRAG_PUZZLE => 3
  | .FINAL_CARD => 4

/-- Stage with a given numeric value; the catch-all is only reachable for 4
because every call site guards the argument to `0 ≤ n ≤ 4` (mirroring the TS
reverse-enum-lookup check `GameStage[parsedStage] !== undefined`). -/
def GameStage.ofIdx : Nat → GameStage
  | 0 => .START
  | 1 => .KNOWLEDGE
  | 2 => .CONQUER
  | 3 => .DRAG_PUZZLE
  | _ => .FINAL_CARD

/-- JS `String.prototype.trim()`: strip leading and trailing whitespace. -/
def jsTrim (s : String) : String :=
  ⟨((s.toList.dropWhile Char.isWhitespace).reverse.dropWhile Char.isWhitespace).reverse⟩

/-- JS `String.prototype.toUpperCase()` on the ASCII range the app uses. -/
def jsToUpper (s : String) : String :=
  ⟨s.toList.map Char.toUpper⟩

/-- JS `parseInt(s, 10)` restricted to the behaviour the source relies on:
read the maximal decimal-digit prefix (after optional whitespace and sign);
`none` models the NaN result when no digit is found. -/
def jsParseDigits (cs : List Char) : Option Nat :=
  let ds := cs.takeWhile Char.isDigit
  if ds.isEmpty then none
  else some (ds.foldl (fun acc c => acc * 10 + (c.toNat - 48)) 0)

/-- JS `parseInt(s, 10)`: skip leading whitespace, optional `+`/`-` sign,
then the maximal digit prefix; `none` is NaN. -/
def jsParseInt (s : String) : Option Int :=
  match s.toList.dropWhile Char.isWhitespace with
  | '-' :: rest => (jsParseDigits rest).map (fun n => -(n : Int))
  | '+' :: rest => (jsParseDigits rest).map (fun n => (n : Int))
  | rest => (jsParseDigits rest).map (fun n => (n : Int))

/-- `getInitialStage` of App.tsx.  `read` models the
`localStorage.getItem(CACHE_KEY)` access: `Except.error` is a storage read
that threw (caught, falls back to START), `Except.ok none` a missing key.
The TS guard `if (savedStage)` makes the empty string fall through to START;
`!isNaN(parsedStage) && GameStage[parsedStage] !== undefined` is the range
check 0 ≤ n ≤ 4 on the parsed integer. -/
def getInitialStage (read : Except Unit (Option String)) : GameStage :=
  match read with
  | Except.error _ => GameStage.START
  | Except.ok savedStage =>
    match savedStage with
    | none => GameStage.START
    | some s =>
      if s = "" then GameStage.START
      else
        match jsParseInt s with
        | none => GameStage.START
        | some parsedStage =>
          if 0 ≤ parsedStage ∧ parsedStage ≤ 4 then GameStage.ofIdx parsedStage.toNat
          else GameStage.START

/-- `JSON.parse` on the mute key's value domain (the app only ever stores
`JSON.stringify(isMuted)`, i.e. `"true"`/`"false"`); any other content is
modelled as a parse failure (`Except.error`), which the caller catches. -/
def jsonParseBool (s : String) : Except Unit Bool :=
  if s = "true" then Except.ok true
  else if s = "false" then Except.ok false
  else Except.error ()

/-- `getInitialMuteState` of App.tsx.  `read` models
`localStorage.getItem(MUTE_CACHE_KEY)`; a thrown read or parse is caught and
yields `false`, a missing key (or empty string, via the `savedMuteState ?`
truthiness test) yields `false`. -/
def getInitialMuteState (read : Except Unit (Option String)) : Bool :=
  match read with
  | Except.error _ => false
  | Except.ok savedMuteState =>
    match savedMuteState with
    | none => false
    | some s =>
      if s = "" then false
      else
        match jsonParseBool s with
        | Except.error _ => false
        | Except.ok b => b

/-- The per-stage record of the `STAGES_DATA` table. -/
structure StageData where
  prompt : String
  correctAnswer : String
  nextStage : GameStage
deriving DecidableEq

/-- The `STAGES_DATA` table of App.tsx. -/
def STAGES_DATA : GameStage → StageData
  | .START =>
    ⟨"ILUMINE sua mente e veja os REFLEXOS de suas ações… digite o que descobriu.",
     "CONHECIMENTO", .KNOWLEDGE⟩
  | .KNOWLEDGE =>
    ⟨"Conecte-se ao Outro Lado e entenda suas mensagens.",
     "CONQUISTAR", .CONQUER⟩
  | .CONQUER =>
    ⟨"O fim é próximo e inevitável, mas você percebe a presença do vazio?",
     "BUSQUE", .DRAG_PUZZLE⟩
  | .DRAG_PUZZLE =>
    ⟨"Revele a frase oculta nas centelhas de conhecimento que já lhe foram dadas.",
     "", .FINAL_CARD⟩
  | .FINAL_CARD =>
    ⟨"Você se provou um bom agente, contate o Oficial de Operações Rafael M. para receber sua recompensa",
     "", .FINAL_CARD⟩

/-- Error message set by `handleSubmit` on a wrong answer. -/
def wrongAnswerMessage : String :=
  "As palavras erradas ecoam no vazio. Há algo que você ainda não compreendeu…"

/-- Error message set by `handleSubmit` when clearing the persisted
progress throws. -/
def removeFailedMessage : String :=
  "Não foi possível apagar o progresso."

/-- The progression state touched by `handleSubmit`: current stage and the
current error message (`None` = no error shown). -/
structure ProgressState where
  stage : GameStage
  error : Option String
deriving DecidableEq

/-- Result of one `handleSubmit` call.
  * `blocked st input`: the early-return guard fired (`isLoading` or
    `stage >= DRAG_PUZZLE`); nothing changed, the input field keeps its text,
    no storage access happens.
  * `restart`: the override branch ran `localStorage.removeItem(CACHE_KEY)`
    followed by `window.location.reload()` — persisted progress is cleared
    and the page re-initializes from scratch.
  * `cont st input`: the call finished normally with new progression state
    `st` and new input-field contents `input`. -/
inductive SubmitResult where
  | blocked (st : ProgressState) (input : String)
  | restart
  | cont (st : ProgressState) (input : String)
deriving DecidableEq

/-- `handleSubmit` of App.tsx.  `isLoading` is the content-fade loading flag
(the UI disables the form while it is set); `removeOk` tells whether the
`localStorage.removeItem` in the override branch succeeds (its catch sets an
error instead).  `input` is the `inputValue` field. -/
def handleSubmit (isLoading : Bool) (removeOk : Bool)
    (st : ProgressState) (input : String) : SubmitResult :=
  if isLoading = true ∨ GameStage.DRAG_PUZZLE.toIdx ≤ st.stage.toIdx then
    SubmitResult.blocked st input
  else
    let formattedInput := jsToUpper (jsTrim input)
    if formattedInput = "0413" then
      if removeOk then SubmitResult.restart
      else SubmitResult.cont { st with error := some removeFailedMessage } input
    else
      let currentStageData := STAGES_DATA st.stage
      if formattedInput = currentStageData.correctAnswer then
        SubmitResult.cont ⟨currentStageData.nextStage, none⟩ ""
      else
        SubmitResult.cont ⟨st.stage, some wrongAnswerMessage⟩ ""

/-! ### The DragPuzzle sub-engine -/

/-- The word list of the `DragPuzzle` component before the mount-time
shuffle (`['CONHECIMENTO', 'CONQUISTAR', 'BUSQUE'].sort(() => Math.random() - 0.5)`);
statements about the shuffled `INITIAL_WORDS` quantify over permutations of
this list. -/
def INITIAL_WORDS_BASE : List String := ["CONHECIMENTO", "CONQUISTAR", "BUSQUE"]

/-- The `CORRECT_SEQUENCE` constant. -/
def CORRECT_SEQUENCE : String := "BUSQUE CONQUISTAR CONHECIMENTO"

/-- Error message set by `checkSequence` on a wrong full arrangement. -/
def sequenceErrorMessage : String :=
  "A sequência está incorreta. As palavras retornam ao caos."

/-- JS truthiness of the nullable-string `selectedWord` field: `null` and
`""` are falsy. -/
def jsTruthyStr : Option String → Bool
  | none => false
  | some s => !s.isEmpty

/-- JS falsiness of an array read `droppedWords[i]` (`Option (Option String)`:
outer `none` = out-of-bounds `undefined`, `some none` = stored `null`):
`undefined`, `null` and `""` are falsy. -/
def jsFalsy : Option (Option String) → Bool
  | none => true
  | some none => true
  | some (some s) => s.isEmpty

/-- The component-local state of `DragPuzzle`: the unplaced word pool
(`draggableWords`), the three slots (`droppedWords`, a stored `null` being
`none`), the puzzle error message, and the click-mode selection. -/
structure PuzzleState where
  draggableWords : List String
  droppedWords : List (Option String)
  error : Option String
  selectedWord : Option String
deriving DecidableEq

/-- Outcome of `checkSequence`: nothing (some slot still empty), a scheduled
`onSolve` call after `delayMs` milliseconds, or an error message plus a
scheduled board reset after `delayMs` milliseconds. -/
inductive CheckResult where
  | pending
  | solveScheduled (delayMs : Nat)
  | resetScheduled (message : String) (delayMs : Nat)
deriving DecidableEq

/-- `checkSequence` of the `DragPuzzle` component:
`sequence.every(word => word !== null)` gates the check; the full board is
joined with single spaces, uppercased and compared to `CORRECT_SEQUENCE`. -/
def checkSequence (sequence : List (Option String)) : CheckResult :=
  if sequence.all Option.isSome then
    if jsToUpper (String.intercalate " " (sequence.map (fun w => w.getD ""))) = CORRECT_SEQUENCE then
      CheckResult.solveScheduled 1000
    else
      CheckResult.resetScheduled sequenceErrorMessage 2000
  else CheckResult.pending

/-- The synchronous effect of `checkSequence` on the `error` field
(`setError(null)` on a match, `setError(message)` on a mismatch, untouched
while the board is not full). -/
def errorAfterCheck (r : CheckResult) (err : Option String) : Option String :=
  match r with
  | CheckResult.pending => err
  | CheckResult.solveScheduled _ => none
  | CheckResult.resetScheduled message _ => some message

/-- `handleDragStart`: starting a drag clears the click-mode selection (the
dragged word itself travels via `dataTransfer` and reappears as the `word`
argument of `handleDrop`). -/
def handleDragStart (s : PuzzleState) : PuzzleState :=
  { s with selectedWord := none }

/-- `handleDrop` of the `DragPuzzle` component.  The guard
`!draggableWords.includes(word) || droppedWords[slotIndex] !== null`
silently ignores the drop of an unpooled word or onto a non-`null` slot. -/
def handleDrop (s : PuzzleState) (word : String) (slotIndex : Nat) : PuzzleState :=
  if ¬ word ∈ s.draggableWords ∨ s.droppedWords.get? slotIndex ≠ some none then s
  else
    let newDroppedWords := s.droppedWords.set slotIndex (some word)
    { s with
      droppedWords := newDroppedWords,
      draggableWords := s.draggableWords.filter (fun w => w ≠ word),
      error := errorAfterCheck (checkSequence newDroppedWords) s.error }

/-- `handleWordClick`: toggle the selection
(`current === word ? null : word`). -/
def handleWordClick (s : PuzzleState) (word : String) : PuzzleState :=
  { s with selectedWord := if s.selectedWord = some word then none else some word }

/-- `handleSlotClick` of the `DragPuzzle` component.  First branch
(`selectedWord && !droppedWords[slotIndex]`): place the selected word.
Second branch (`droppedWords[slotIndex]` truthy): vacate the slot, returning
its word to the pool.  Otherwise nothing happens. -/
def handleSlotClick (s : PuzzleState) (slotIndex : Nat) : PuzzleState :=
  if jsTruthyStr s.selectedWord = true ∧ jsFalsy (s.droppedWords.get? slotIndex) = true then
    let sel := s.selectedWord.getD ""
    let newDroppedWords := s.droppedWords.set slotIndex (some sel)
    { s with
      droppedWords := newDroppedWords,
      draggableWords := s.draggableWords.filter (fun w => w ≠ sel),
      selectedWord := none,
      error := errorAfterCheck (checkSequence newDroppedWords) s.error }
  else if jsFalsy (s.droppedWords.get? slotIndex) = false then
    let wordToReturn := ((s.droppedWords.get? slotIndex).getD none).getD ""
    { s with
      droppedWords := s.droppedWords.set slotIndex none,
      draggableWords := s.draggableWords ++ [wordToReturn],
      selectedWord := none }
  else s

/-- The body of the reset timer scheduled by `checkSequence` on a mismatch:
restore the original pool (`INITIAL_WORDS`, the mount-time order — not
re-shuffled), clear all slots, clear the error.  The selection is not
touched by the timer callback. -/
def resetPuzzle (initialWords : List String) (s : PuzzleState) : PuzzleState :=
  { s with
    draggableWords := initialWords,
    droppedWords := [none, none, none],
    error := none }

/-- The state of `DragPuzzle` at mount: pool = the (shuffled) initial words,
three `null` slots, no error, no selection. -/
def initialPuzzleState (initialWords : List String) : PuzzleState :=
  { draggableWords := initialWords,
    droppedWords := [none, none, none],
    error := none,
    selectedWord := none }

/-- One user-visible event of the puzzle.  The side conditions record which
events the rendered UI can emit: a word click only exists on a word tile
currently rendered in the pool, slot events carry one of the three rendered
slot indices (`Fin 3`), a drag is always `handleDragStart` (which fires on
the pool tile being dragged) followed by `handleDrop`, and the reset timer
only fires after a mismatch set `sequenceErrorMessage`. -/
inductive PuzzleStep (initialWords : List String) : PuzzleState → PuzzleState → Prop
  | drag (s : PuzzleState) (word : String) (i : Fin 3) :
      PuzzleStep initialWords s (handleDrop (handleDragStart s) word i.val)
  | wordClick (s : PuzzleState) (word : String) (hw : word ∈ s.draggableWords) :
      PuzzleStep initialWords s (handleWordClick s word)
  | slotClick (s : PuzzleState) (i : Fin 3) :
      PuzzleStep initialWords s (handleSlotClick s i.val)
  | timerReset (s : PuzzleState) (h : s.error = some sequenceErrorMessage) :
      PuzzleStep initialWords s (resetPuzzle initialWords s)

/-- All words currently on the board: pool followed by the filled slots. -/
def puzzleWords (s : PuzzleState) : List String :=
  s.draggableWords ++ s.droppedWords.filterMap id

/-- The conservation invariant of the puzzle, strengthened with the two
facts the preservation proof needs: the board always has exactly three
slots, and a (truthy) selection is always a word of the pool. -/
def PuzzleInv (s : PuzzleState) : Prop :=
  s.droppedWords.length = 3 ∧
  (puzzleWords s).Perm INITIAL_WORDS_BASE ∧
  (∀ w : String, s.selectedWord = some w → w ∈ s.draggableWords)

/-! ### Helper lemmas for the conservation invariant -/

theorem filter_ne_of_not_mem (l : List String) (a : String) (h : a ∉ l) :
    l.filter (fun x => x ≠ a) = l := by
  induction l with
  | nil => rfl
  | cons b t ih =>
    simp only [List.mem_cons, not_or] at h
    rw [List.filter_cons_of_pos (by exact decide_eq_true (fun e => h.1 e.symm)),
      ih h.2]

theorem cons_filter_ne_perm (l : List String) (a : String) (hnd : l.Nodup)
    (ha : a ∈ l) : (a :: l.filter (fun x => x ≠ a)).Perm l := by
  induction l with
  | nil => cases ha
  | cons b t ih =>
    rcases List.mem_cons.mp ha with hab | hat
    · subst hab
      have hnotmem : a ∉ t := (List.nodup_cons.mp hnd).1
      rw [List.filter_cons_of_neg (by simp), filter_ne_of_not_mem t a hnotmem]
    · have hba : b ≠ a := fun hba => (List.nodup_cons.mp hnd).1 (hba ▸ hat)
      have ht : t.Nodup := (List.nodup_cons.mp hnd).2
      have step := (ih ht hat).cons b
      rw [List.filter_cons_of_pos (by exact decide_eq_true hba)]
      exact (List.Perm.swap b a _).trans step

theorem filterMap_set_some_perm (slots : List (Option String)) (i : Nat) (w : String)
    (h : slots.get? i = some none) :
    ((slots.set i (some w)).filterMap id).Perm (w :: slots.filterMap id) := by
  induction slots generalizing i with
  | nil => simp at h
  | cons a t ih =>
    cases i with
    | zero =>
      have ha : a = none := by simpa using h
      subst ha
      simp [List.filterMap_cons]
    | succ i =>
      have h' : t.get? i = some none := by simpa using h
      cases a with
      | none =>
        simpa [List.filterMap_cons] using ih i h'
      | some b =>
        have step := (ih i h').cons b
        simpa [List.filterMap_cons] using step.trans (List.Perm.swap w b _)

theorem filterMap_set_none_perm (slots : List (Option String)) (i : Nat) (v : String)
    (h : slots.get? i = some (some v)) :
    (slots.filterMap id).Perm (v :: (slots.set i none).filterMap id) := by
  induction slots generalizing i with
  | nil => simp at h
  | cons a t ih =>
    cases i with
    | zero =>
      have ha : a = some v := by simpa using h
      subst ha
      simp [List.filterMap_cons]
    | succ i =>
      have h' : t.get? i = some (some v) := by simpa using h
      cases a with
      | none =>
        simpa [List.filterMap_cons] using ih i h'
      | some b =>
        have step := (ih i h').cons b
        simpa [List.filterMap_cons] using step.trans (List.Perm.swap v b _)

theorem mem_filterMap_of_get? (slots : List (Option String)) (i : Nat) (v : String)
    (h : slots.get? i = some (some v)) : v ∈ slots.filterMap id :=
  List.mem_filterMap.mpr ⟨some v, List.get?_mem h, rfl⟩

theorem jsTruthyStr_eq_true {o : Option String} (h : jsTruthyStr o = true) :
    ∃ w, o = some w ∧ w.isEmpty = false := by
  cases o with
  | none => simp [jsTruthyStr] at h
  | some s =>
    refine ⟨s, rfl, ?_⟩
    simpa [jsTruthyStr] using h

theorem jsFalsy_eq_false {x : Option (Option String)} (h : jsFalsy x = false) :
    ∃ s, x = some (some s) ∧ s.isEmpty = false := by
  match x with
  | none => simp [jsFalsy] at h
  | some none => simp [jsFalsy] at h
  | some (some s) =>
    refine ⟨s, rfl, ?_⟩
    simpa [jsFalsy] using h

theorem base_nodup : INITIAL_WORDS_BASE.Nodup := by decide

theorem base_not_empty : ∀ v ∈ INITIAL_WORDS_BASE, v.isEmpty = false := by decide

theorem place_perm {pool : List String} {slots : List (Option String)}
    {w : String} {i : Nat}
    (hperm : (pool ++ slots.filterMap id).Perm INITIAL_WORDS_BASE)
    (hw : w ∈ pool) (hs : slots.get? i = some none) :
    ((pool.filter (fun x => x ≠ w)) ++ (slots.set i (some w)).filterMap id).Perm
      INITIAL_WORDS_BASE := by
  have hnodup : pool.Nodup := (hperm.nodup_iff.mpr base_nodup).of_append_left
  have h1 : ((pool.filter (fun x => x ≠ w)) ++ (slots.set i (some w)).filterMap id).Perm
      ((pool.filter (fun x => x ≠ w)) ++ (w :: slots.filterMap id)) :=
    List.Perm.append_left _ (filterMap_set_some_perm slots i w hs)
  have h2 : ((pool.filter (fun x => x ≠ w)) ++ (w :: slots.filterMap id)).Perm
      (w :: ((pool.filter (fun x => x ≠ w)) ++ slots.filterMap id)) :=
    List.perm_middle
  have h3 : (w :: ((pool.filter (fun x => x ≠ w)) ++ slots.filterMap id)).Perm
      (pool ++ slots.filterMap id) := by
    have hstep := (cons_filter_ne_perm pool w hnodup hw).append_right (slots.filterMap id)
    simpa using hstep
  exact ((h1.trans h2).trans h3).trans hperm

theorem vacate_perm {pool : List String} {slots : List (Option String)}
    {v : String} {i : Nat}
    (hperm : (pool ++ slots.filterMap id).Perm INITIAL_WORDS_BASE)
    (hs : slots.get? i = some (some v)) :
    ((pool ++ [v]) ++ (slots.set i none).filterMap id).Perm INITIAL_WORDS_BASE := by
  have h1 := filterMap_set_none_perm slots i v hs
  have h2 : ((pool ++ [v]) ++ (slots.set i none).filterMap id)
      = pool ++ (v :: (slots.set i none).filterMap id) := by
    simp [List.append_assoc]
  rw [h2]
  exact (List.Perm.append_left pool h1.symm).trans hperm

theorem inv_handleDragStart {s : PuzzleState} (h : PuzzleInv s) :
    PuzzleInv (handleDragStart s) := by
  obtain ⟨hlen, hperm, _⟩ := h
  exact ⟨hlen, hperm, fun w hw => by cases hw⟩

theorem inv_handleDrop {s : PuzzleState} (h : PuzzleInv s)
    (hsel : s.selectedWord = none) (word : String) (i : Nat) :
    PuzzleInv (handleDrop s word i) := by
  obtain ⟨hlen, hperm, hselinv⟩ := h
  unfold handleDrop
  split
  · exact ⟨hlen, hperm, hselinv⟩
  · rename_i hguard
    push_neg at hguard
    obtain ⟨hw, hs⟩ := hguard
    refine ⟨?_, ?_, ?_⟩
    · simpa [List.length_set] using hlen
    · exact place_perm hperm hw hs
    · intro w hw'
      rw [show ({ s with
            droppedWords := s.droppedWords.set i (some word),
            draggableWords := s.draggableWords.filter (fun w => w ≠ word),
            error := errorAfterCheck (checkSequence (s.droppedWords.set i (some word)))
              s.error } : PuzzleState).selectedWord = s.selectedWord from rfl, hsel] at hw'
      cases hw'

theorem inv_handleWordClick {s : PuzzleState} (h : PuzzleInv s) (word : String)
    (hw : word ∈ s.draggableWords) : PuzzleInv (handleWordClick s word) := by
  obtain ⟨hlen, hperm, _⟩ := h
  refine ⟨hlen, hperm, ?_⟩
  intro w hw'
  unfold handleWordClick at hw'
  dsimp only at hw'
  split at hw'
  · cases hw'
  · cases hw'
    exact hw

theorem inv_handleSlotClick {s : PuzzleState} (h : PuzzleInv s) (i : Nat)
    (hi : i < 3) : PuzzleInv (handleSlotClick s i) := by
  obtain ⟨hlen, hperm, hselinv⟩ := h
  unfold handleSlotClick
  split
  · rename_i hcond
    obtain ⟨htr, hfal⟩ := hcond
    obtain ⟨sel0, hsel0, _⟩ := jsTruthyStr_eq_true htr
    have hib : i < s.droppedWords.length := by rw [hlen]; exact hi
    have hs : s.droppedWords.get? i = some none := by
      cases hget : s.droppedWords.get? i with
      | none =>
        have := List.get?_eq_none.mp hget
        omega
      | some o =>
        cases o with
        | none => rfl
        | some v =>
          have hvbase : v ∈ INITIAL_WORDS_BASE :=
            hperm.mem_iff.mp
              (List.mem_append.mpr (Or.inr (mem_filterMap_of_get? _ i v hget)))
          have hvne : v.isEmpty = false := base_not_empty v hvbase
          rw [hget] at hfal
          simp [jsFalsy, hvne] at hfal
    have hselpool : sel0 ∈ s.draggableWords := hselinv sel0 hsel0
    have hgetD : s.selectedWord.getD "" = sel0 := by rw [hsel0]; rfl
    refine ⟨?_, ?_, ?_⟩
    · simpa [List.length_set] using hlen
    · rw [show puzzleWords { s with
            droppedWords := s.droppedWords.set i (some (s.selectedWord.getD "")),
            draggableWords :=
              s.draggableWords.filter (fun w => w ≠ s.selectedWord.getD ""),
            selectedWord := none,
            error := errorAfterCheck
              (checkSequence (s.droppedWords.set i (some (s.selectedWord.getD ""))))
              s.error }
          = (s.draggableWords.filter (fun w => w ≠ s.selectedWord.getD "")) ++
            (s.droppedWords.set i (some (s.selectedWord.getD ""))).filterMap id
        from rfl, hgetD]
      exact place_perm hperm hselpool hs
    · intro w hw'
      cases hw'
  · split
    · rename_i hfal
      obtain ⟨v, hget, _⟩ := jsFalsy_eq_false hfal
      have hret : ((s.droppedWords.get? i).getD none).getD "" = v := by
        rw [hget]; rfl
      refine ⟨?_, ?_, ?_⟩
      · simpa [List.length_set] using hlen
      · rw [show puzzleWords { s with
              droppedWords := s.droppedWords.set i none,
              draggableWords :=
                s.draggableWords ++ [((s.droppedWords.get? i).getD none).getD ""],
              selectedWord := none }
            = (s.draggableWords ++ [((s.droppedWords.get? i).getD none).getD ""]) ++
              (s.droppedWords.set i none).filterMap id
          from rfl, hret]
        exact vacate_perm hperm hget
      · intro w hw'
        cases hw'
    · exact ⟨hlen, hperm, hselinv⟩

theorem inv_resetPuzzle {initialWords : List String}
    (hinit : initialWords.Perm INITIAL_WORDS_BASE) {s : PuzzleState}
    (h : PuzzleInv s) : PuzzleInv (resetPuzzle initialWords s) := by
  obtain ⟨_, hperm, hselinv⟩ := h
  refine ⟨rfl, ?_, ?_⟩
  · simpa [puzzleWords, resetPuzzle] using hinit
  · intro w hw'
    have hwpool := hselinv w hw'
    have hwbase : w ∈ INITIAL_WORDS_BASE :=
      hperm.mem_iff.mp (List.mem_append.mpr (Or.inl hwpool))
    exact hinit.mem_iff.mpr hwbase

theorem inv_step {initialWords : List String}
    (hinit : initialWords.Perm INITIAL_WORDS_BASE) {s t : PuzzleState}
    (hstep : PuzzleStep initialWords s t) (h : PuzzleInv s) : PuzzleInv t := by
  cases hstep with
  | drag word i => exact inv_handleDrop (inv_handleDragStart h) rfl word i.val
  | wordClick word hw => exact inv_handleWordClick h word hw
  | slotClick i => exact inv_handleSlotClick h i.val i.isLt
  | timerReset hE => exact inv_resetPuzzle hinit h

theorem inv_initial {initialWords : List String}
    (hinit : initialWords.Perm INITIAL_WORDS_BASE) :
    PuzzleInv (initialPuzzleState initialWords) := by
  refine ⟨rfl, ?_, ?_⟩
  · simpa [puzzleWords, initialPuzzleState] using hinit
  · intro w hw'
    cases hw'

theorem inv_reachable {initialWords : List String}
    (hinit : initialWords.Perm INITIAL_WORDS_BASE) {s : PuzzleState}
    (h : Relation.ReflTransGen (PuzzleStep initialWords)
      (initialPuzzleState initialWords) s) : PuzzleInv s := by
  induction h with
  | refl => exact inv_initial hinit
  | tail hpre hstep ih => exact inv_step hinit hstep ih

/-- A reachable puzzle state in which the word "BUSQUE" is already the
click-mode selection (obtained from the mount state by one word click). -/
def selectedCounterState : PuzzleState :=
  { draggableWords := ["CONHECIMENTO", "CONQUISTAR", "BUSQUE"],
    droppedWords := [none, none, none],
    error := none,
    selectedWord := some "BUSQUE" }

/-- A reachable puzzle state with "BUSQUE" placed in slot 0 and
"CONQUISTAR" as the click-mode selection. -/
def selectedOccupiedState : PuzzleState :=
  { draggableWords := ["CONHECIMENTO", "CONQUISTAR"],
    droppedWords := [some "BUSQUE", none, none],
    error := none,
    selectedWord := some "CONQUISTAR" }

/-! ### Claim theorems -/

/-- C1: For every stage strictly before DRAG_PUZZLE and every input whose
trimmed, uppercased form is not the override code "0413", `handleSubmit`
(with the form enabled, i.e. not during the loading fade) transitions the
stage to the catalog entry's `nextStage` and clears the error exactly when
the normalized input equals the entry's `correctAnswer`; when it does not,
the wrong-answer message is set and the stage is unchanged (the input field
is cleared either way).  In particular, "conhecimento" at START advances to
KNOWLEDGE clearing the error, and "xyz" at START stays at START with the
error set and the input cleared. -/
theorem submit_text_stage_correctness (removeOk : Bool) (st : ProgressState)
    (input : String) (hstage : st.stage.toIdx < GameStage.DRAG_PUZZLE.toIdx)
    (hover : jsToUpper (jsTrim input) ≠ "0413") :
    (jsToUpper (jsTrim input) = (STAGES_DATA st.stage).correctAnswer →
      handleSubmit false removeOk st input
        = SubmitResult.cont ⟨(STAGES_DATA st.stage).nextStage, none⟩ "") ∧
    (jsToUpper (jsTrim input) ≠ (STAGES_DATA st.stage).correctAnswer →
      handleSubmit false removeOk st input
        = SubmitResult.cont ⟨st.stage, some wrongAnswerMessage⟩ "") ∧
    handleSubmit false removeOk ⟨GameStage.START, st.error⟩ "conhecimento"
      = SubmitResult.cont ⟨GameStage.KNOWLEDGE, none⟩ "" ∧
    handleSubmit false removeOk ⟨GameStage.START, st.error⟩ "xyz"
      = SubmitResult.cont ⟨GameStage.START, some wrongAnswerMessage⟩ "" := by
  have hguard : ¬ (false = true ∨ GameStage.DRAG_PUZZLE.toIdx ≤ st.stage.toIdx) := by
    push_neg
    exact ⟨by simp, by omega⟩
  refine ⟨?_, ?_, rfl, rfl⟩
  · intro hcorr
    unfold handleSubmit
    rw [if_neg hguard, if_neg hover, if_pos hcorr]
  · intro hwrong
    unfold handleSubmit
    rw [if_neg hguard, if_neg hover, if_neg hwrong]

theorem submit_text_stage_correctness_witness :
    handleSubmit false true ⟨GameStage.START, none⟩ "conhecimento"
      = SubmitResult.cont ⟨GameStage.KNOWLEDGE, none⟩ "" :=
  (submit_text_stage_correctness true ⟨GameStage.START, none⟩ "conhecimento"
    (by decide) (by decide)).1 (by decide)

/-- C2 counterexample: submitting the override code "0413" at DRAG_PUZZLE (a
non-terminal stage the claim covers) does not restart: `handleSubmit`
returns before the override check because of the `stage >= DRAG_PUZZLE`
guard, leaving everything unchanged. -/
theorem submit_override_at_drag_puzzle_counterexample :
    handleSubmit false true ⟨GameStage.DRAG_PUZZLE, none⟩ "0413"
      = SubmitResult.blocked ⟨GameStage.DRAG_PUZZLE, none⟩ "0413" ∧
    handleSubmit false true ⟨GameStage.DRAG_PUZZLE, none⟩ "0413"
      ≠ SubmitResult.restart := by decide

/-- C2 (amended): submitting the normalized override code "0413" from any
stage strictly before DRAG_PUZZLE (START, KNOWLEDGE, or CONQUER) clears the
persisted stage progress and signals a full restart, which re-initializes
the in-memory stage to START (the reload reads the now-missing key); the
override is evaluated before the normal answer comparison, regardless of
which of these stages is current.  At DRAG_PUZZLE and FINAL_CARD the
submission is a no-op instead. -/
theorem submit_override_resets (st : ProgressState) (input : String)
    (hstage : st.stage.toIdx < GameStage.DRAG_PUZZLE.toIdx)
    (hover : jsToUpper (jsTrim input) = "0413") :
    handleSubmit false true st input = SubmitResult.restart ∧
    getInitialStage (Except.ok none) = GameStage.START := by
  have hguard : ¬ (false = true ∨ GameStage.DRAG_PUZZLE.toIdx ≤ st.stage.toIdx) := by
    push_neg
    exact ⟨by simp, by omega⟩
  refine ⟨?_, rfl⟩
  unfold handleSubmit
  rw [if_neg hguard, if_pos hover, if_pos rfl]

theorem submit_override_resets_witness :
    handleSubmit false true ⟨GameStage.CONQUER, some wrongAnswerMessage⟩ " 0413 "
      = SubmitResult.restart ∧
    getInitialStage (Except.ok none) = GameStage.START :=
  submit_override_resets ⟨GameStage.CONQUER, some wrongAnswerMessage⟩ " 0413 "
    (by decide) (by decide)

/-- C3: at DRAG_PUZZLE or FINAL_CARD, `handleSubmit` is a complete no-op for
every input and every loading/storage condition: it returns through the
early guard with the progression state and the input field untouched, no
storage access and no restart signal. -/
theorem submit_noop_at_or_past_drag_puzzle (isLoading removeOk : Bool)
    (st : ProgressState) (input : String)
    (hstage : st.stage = GameStage.DRAG_PUZZLE ∨ st.stage = GameStage.FINAL_CARD) :
    handleSubmit isLoading removeOk st input = SubmitResult.blocked st input := by
  have hge : GameStage.DRAG_PUZZLE.toIdx ≤ st.stage.toIdx := by
    rcases hstage with h | h
    · rw [h]
    · rw [h]; decide
  unfold handleSubmit
  rw [if_pos (Or.inr hge)]

theorem submit_noop_at_or_past_drag_puzzle_witness :
    handleSubmit false true ⟨GameStage.FINAL_CARD, none⟩ "0413"
      = SubmitResult.blocked ⟨GameStage.FINAL_CARD, none⟩ "0413" :=
  submit_noop_at_or_past_drag_puzzle false true ⟨GameStage.FINAL_CARD, none⟩ "0413"
    (Or.inr rfl)

/-- C4: starting from the mount state of the puzzle (the three shuffled
words in the pool, three empty slots, no selection), after any finite
sequence of UI-realizable events — drag placement, word click, slot click
(placing a selection or vacating a slot) and the error-reset timer — the
number of pool words plus the number of filled slots is 3 and the words
across pool and slots are exactly the three-word vocabulary, never
duplicated or lost. -/
theorem puzzle_conservation (initialWords : List String)
    (hinit : initialWords.Perm INITIAL_WORDS_BASE) (s : PuzzleState)
    (hreach : Relation.ReflTransGen (PuzzleStep initialWords)
      (initialPuzzleState initialWords) s) :
    s.draggableWords.length + (s.droppedWords.filterMap id).length = 3 ∧
    (s.draggableWords ++ s.droppedWords.filterMap id).Perm INITIAL_WORDS_BASE := by
  have hinv := inv_reachable hinit hreach
  refine ⟨?_, hinv.2.1⟩
  have hlen := hinv.2.1.length_eq
  simpa [puzzleWords, INITIAL_WORDS_BASE] using hlen

theorem puzzle_conservation_witness :
    (handleDrop (handleDragStart (initialPuzzleState INITIAL_WORDS_BASE))
        "BUSQUE" 0).draggableWords.length +
      ((handleDrop (handleDragStart (initialPuzzleState INITIAL_WORDS_BASE))
        "BUSQUE" 0).droppedWords.filterMap id).length = 3 ∧
    ((handleDrop (handleDragStart (initialPuzzleState INITIAL_WORDS_BASE))
        "BUSQUE" 0).draggableWords ++
      (handleDrop (handleDragStart (initialPuzzleState INITIAL_WORDS_BASE))
        "BUSQUE" 0).droppedWords.filterMap id).Perm INITIAL_WORDS_BASE :=
  puzzle_conservation INITIAL_WORDS_BASE (List.Perm.refl _) _
    (Relation.ReflTransGen.single
      (PuzzleStep.drag (initialPuzzleState INITIAL_WORDS_BASE) "BUSQUE" 0))

/-- C5: the completion check only fires once all three slots are non-empty;
on a full board it joins the slot contents with single spaces, uppercases,
and compares with "BUSQUE CONQUISTAR CONHECIMENTO": a match schedules the
solve signal after a fixed 1000 ms settling delay, any other full
arrangement sets the sequence error message and schedules, after a fixed
2000 ms delay, a reset that restores the pool to the original mount-time
word list (same relative order, not re-shuffled), clears all slots and
clears the error. -/
theorem checkSequence_completion (sequence : List (Option String))
    (initialWords : List String) (s : PuzzleState)
    (hfull : sequence.all Option.isSome = true) :
    (jsToUpper (String.intercalate " " (sequence.map (fun w => w.getD "")))
        = CORRECT_SEQUENCE →
      checkSequence sequence = CheckResult.solveScheduled 1000) ∧
    (jsToUpper (String.intercalate " " (sequence.map (fun w => w.getD "")))
        ≠ CORRECT_SEQUENCE →
      checkSequence sequence = CheckResult.resetScheduled sequenceErrorMessage 2000) ∧
    (∀ seq2 : List (Option String), seq2.all Option.isSome = false →
      checkSequence seq2 = CheckResult.pending) ∧
    checkSequence [some "BUSQUE", some "CONQUISTAR", some "CONHECIMENTO"]
      = CheckResult.solveScheduled 1000 ∧
    (resetPuzzle initialWords s).draggableWords = initialWords ∧
    (resetPuzzle initialWords s).droppedWords = [none, none, none] ∧
    (resetPuzzle initialWords s).error = none := by
  refine ⟨?_, ?_, ?_, by decide, rfl, rfl, rfl⟩
  · intro hmatch
    unfold checkSequence
    rw [if_pos hfull, if_pos hmatch]
  · intro hmiss
    unfold checkSequence
    rw [if_pos hfull, if_neg hmiss]
  · intro seq2 hseq2
    unfold checkSequence
    rw [if_neg (by simp [hseq2])]

theorem checkSequence_completion_witness :
    checkSequence [some "BUSQUE", some "CONHECIMENTO", some "CONQUISTAR"]
      = CheckResult.resetScheduled sequenceErrorMessage 2000 :=
  (checkSequence_completion
    [some "BUSQUE", some "CONHECIMENTO", some "CONQUISTAR"]
    INITIAL_WORDS_BASE (initialPuzzleState INITIAL_WORDS_BASE)
    (by decide)).2.1 (by decide)

/-- C6 counterexample: the two placement modalities are not equivalent on
every puzzle state with the word in the pool and the slot empty — in the
(reachable) state where "BUSQUE" is already the click-mode selection, drag
placement moves it into slot 0, while clicking the word (which deselects
it) and then the slot leaves pool and slots untouched. -/
theorem placement_equiv_counterexample :
    "BUSQUE" ∈ selectedCounterState.draggableWords ∧
    selectedCounterState.droppedWords.get? 0 = some none ∧
    ¬ ((handleDrop (handleDragStart selectedCounterState) "BUSQUE" 0).draggableWords
        = (handleSlotClick (handleWordClick selectedCounterState "BUSQUE") 0).draggableWords ∧
       (handleDrop (handleDragStart selectedCounterState) "BUSQUE" 0).droppedWords
        = (handleSlotClick (handleWordClick selectedCounterState "BUSQUE") 0).droppedWords) := by
  decide

/-- C6 (amended): drag placement and click placement agree on pool and slot
contents for every puzzle state, every (non-empty) word of the pool that is
not already the click-mode selection, and every empty slot: dropping the
word into the slot and clicking the word then the slot produce identical
pools and identical slots. -/
theorem placement_equiv_amended (s : PuzzleState) (w : String) (i : Nat)
    (hw : w ∈ s.draggableWords) (hslot : s.droppedWords.get? i = some none)
    (hne : w.isEmpty = false) (hnsel : s.selectedWord ≠ some w) :
    (handleDrop (handleDragStart s) w i).draggableWords
      = (handleSlotClick (handleWordClick s w) i).draggableWords ∧
    (handleDrop (handleDragStart s) w i).droppedWords
      = (handleSlotClick (handleWordClick s w) i).droppedWords := by
  have h1 : handleDrop (handleDragStart s) w i =
      { s with
        droppedWords := s.droppedWords.set i (some w),
        draggableWords := s.draggableWords.filter (fun x => x ≠ w),
        selectedWord := none,
        error := errorAfterCheck (checkSequence (s.droppedWords.set i (some w)))
          s.error } := by
    unfold handleDragStart handleDrop
    rw [if_neg (by push_neg; exact ⟨hw, hslot⟩)]
  have hwc : handleWordClick s w = { s with selectedWord := some w } := by
    unfold handleWordClick
    rw [if_neg hnsel]
  have h2 : handleSlotClick (handleWordClick s w) i =
      { s with
        droppedWords := s.droppedWords.set i (some w),
        draggableWords := s.draggableWords.filter (fun x => x ≠ w),
        selectedWord := none,
        error := errorAfterCheck (checkSequence (s.droppedWords.set i (some w)))
          s.error } := by
    rw [hwc]
    unfold handleSlotClick
    rw [if_pos ⟨by simp [jsTruthyStr, hne], by rw [show ({ s with selectedWord := some w } :
      PuzzleState).droppedWords.get? i = some none from hslot]; rfl⟩]
    rfl
  rw [h1, h2]
  exact ⟨rfl, rfl⟩

theorem placement_equiv_amended_witness :
    (handleDrop (handleDragStart (initialPuzzleState INITIAL_WORDS_BASE))
        "BUSQUE" 0).draggableWords
      = (handleSlotClick
          (handleWordClick (initialPuzzleState INITIAL_WORDS_BASE) "BUSQUE") 0).draggableWords ∧
    (handleDrop (handleDragStart (initialPuzzleState INITIAL_WORDS_BASE))
        "BUSQUE" 0).droppedWords
      = (handleSlotClick
          (handleWordClick (initialPuzzleState INITIAL_WORDS_BASE) "BUSQUE") 0).droppedWords :=
  placement_equiv_amended (initialPuzzleState INITIAL_WORDS_BASE) "BUSQUE" 0
    (by decide) (by decide) (by decide) (by decide)

/-- C7: initial-stage loading is total and fails open to START: the persisted
string "2" yields CONQUER, "99" and "abc" yield START, and a missing key or
a storage read failure also yields START (the Lean function is total, so no
input is left undefined). -/
theorem initial_stage_loading :
    getInitialStage (Except.ok (some "2")) = GameStage.CONQUER ∧
    getInitialStage (Except.ok (some "99")) = GameStage.START ∧
    getInitialStage (Except.ok (some "abc")) = GameStage.START ∧
    getInitialStage (Except.ok none) = GameStage.START ∧
    getInitialStage (Except.error ()) = GameStage.START := by
  decide

/-- C8: in click mode, clicking the currently selected word deselects it
(selection cleared, pool and slots untouched); clicking an occupied slot
with a selection active does not place the selected word — it vacates the
slot, appending the slot's word to the pool and clearing the selection —
whereas drag placement onto an occupied slot changes nothing at all. -/
theorem click_mode_asymmetry (s : PuzzleState) (w v : String) (i : Nat)
    (hsel : s.selectedWord = some w)
    (hslot : s.droppedWords.get? i = some (some v)) (hv : v.isEmpty = false) :
    ((handleWordClick s w).selectedWord = none ∧
      (handleWordClick s w).draggableWords = s.draggableWords ∧
      (handleWordClick s w).droppedWords = s.droppedWords) ∧
    handleSlotClick s i = { s with
      droppedWords := s.droppedWords.set i none,
      draggableWords := s.draggableWords ++ [v],
      selectedWord := none } ∧
    handleDrop s w i = s := by
  refine ⟨⟨?_, rfl, rfl⟩, ?_, ?_⟩
  · unfold handleWordClick
    rw [show (if s.selectedWord = some w then none else some w) = none from
      if_pos hsel]
  · have hfal : jsFalsy (s.droppedWords.get? i) = false := by
      rw [hslot]
      simpa [jsFalsy] using hv
    unfold handleSlotClick
    rw [if_neg (by rw [hfal]; simp), if_pos (by rw [hfal])]
    rw [show ((s.droppedWords.get? i).getD none).getD "" = v from by rw [hslot]; rfl]
  · unfold handleDrop
    rw [if_pos (Or.inr (by rw [hslot]; simp))]

theorem click_mode_asymmetry_witness :
    ((handleWordClick selectedOccupiedState "CONQUISTAR").selectedWord = none ∧
      (handleWordClick selectedOccupiedState "CONQUISTAR").draggableWords
        = selectedOccupiedState.draggableWords ∧
      (handleWordClick selectedOccupiedState "CONQUISTAR").droppedWords
        = selectedOccupiedState.droppedWords) ∧
    handleSlotClick selectedOccupiedState 0 = { selectedOccupiedState with
      droppedWords := selectedOccupiedState.droppedWords.set 0 none,
      draggableWords := selectedOccupiedState.draggableWords ++ ["BUSQUE"],
      selectedWord := none } ∧
    handleDrop selectedOccupiedState "CONQUISTAR" 0 = selectedOccupiedState :=
  click_mode_asymmetry selectedOccupiedState "CONQUISTAR" "BUSQUE" 0
    rfl rfl rfl

/-- C9: initial mute loading: a missing key yields `false`, the literal
persisted text "true" yields `true`, and a storage read failure or an
unparseable stored value also yields `false`. -/
theorem initial_mute_loading :
    getInitialMuteState (Except.ok none) = false ∧
    getInitialMuteState (Except.ok (some "true")) = true ∧
    getInitialMuteState (Except.error ()) = false ∧
    (∀ s : String, jsonParseBool s = Except.error () →
      getInitialMuteState (Except.ok (some s)) = false) := by
  refine ⟨rfl, rfl, rfl, ?_⟩
  intro s hs
  by_cases he : s = ""
  · simp [getInitialMuteState, he]
  · simp [getInitialMuteState, he, hs]

theorem initial_mute_loading_witness :
    getInitialMuteState (Except.ok (some "abc")) = false :=
  initial_mute_loading.2.2.2 "abc" rfl

/-- C10 (implicit): persisted stage strings that are not a pure decimal
index are still accepted when parsing reads an in-range leading numeric
value — for every stored string whose `parseInt` result is `n` with
0 ≤ n ≤ 4, initialization returns stage `n` rather than the START fallback;
in particular "2abc" yields CONQUER and "3.9" yields DRAG_PUZZLE. -/
theorem stage_leading_digits_accepted (s : String) (n : Int)
    (hparse : jsParseInt s = some n) (h0 : 0 ≤ n) (h4 : n ≤ 4) :
    getInitialStage (Except.ok (some s)) = GameStage.ofIdx n.toNat ∧
    getInitialStage (Except.ok (some "2abc")) = GameStage.CONQUER ∧
    getInitialStage (Except.ok (some "3.9")) = GameStage.DRAG_PUZZLE := by
  refine ⟨?_, by decide, by decide⟩
  have hne : s ≠ "" := by
    intro he
    rw [he, show jsParseInt "" = none from rfl] at hparse
    cases hparse
  simp [getInitialStage, hne, hparse, h0, h4]

theorem stage_leading_digits_accepted_witness :
    getInitialStage (Except.ok (some "2abc")) = GameStage.ofIdx (2 : Int).toNat :=
  (stage_leading_digits_accepted "2abc" 2 (by decide) (by decide) (by decide)).1

end ArgOp
